import Mathlib

/-!
Verification of the File_Management repository's file lifecycle and
consistency engine: a shallow embedding of the Go source (storage backends,
lookaside cache, file lifecycle service, expiry sweep, rate limiter)
together with theorems settling the specification claims.

Conventions of the embedding:
* Go `time.Time` instants are modelled as `Int` (seconds); the Go zero time
  (`0001-01-01 00:00:00`) is modelled as `0`, and every realistic instant is
  positive.  `t.IsZero()` becomes `t = 0`; `a.After(b)` becomes `a > b`.
* Go `error` results are modelled as `Except String α`, the `String`
  carrying the `fmt.Errorf` message (with `%w` wrapping rendered as string
  concatenation, as `err.Error()` does).
* The three stores the service orchestrates are explicit state:
  blob store = list of present storage keys, metadata store = list of rows,
  cache = association lists keyed by the literal cache-key strings.
* External oracles (UUID generation, `time.ParseDuration`, the outcome of a
  database INSERT) are passed in as explicit arguments, so every definition
  is executable on concrete inputs.
-/

/-- Decidable equality for Go-style fallible results, so concrete runs of
the embedded operations can be checked by `decide`. -/
instance {ε α : Type} [DecidableEq ε] [DecidableEq α] :
    DecidableEq (Except ε α) := fun x y =>
  match x, y with
  | .ok a, .ok b =>
    if h : a = b then .isTrue (by rw [h]) else .isFalse (by simp [h])
  | .ok _, .error _ => .isFalse (by simp)
  | .error _, .ok _ => .isFalse (by simp)
  | .error a, .error b =>
    if h : a = b then .isTrue (by rw [h]) else .isFalse (by simp [h])

namespace FileMgmt

/-- Go `time.Time` modelled as an instant in seconds; `0` is the zero time. -/
abbrev Time := Int

/-- From `internal/models/models.go`, `type File struct`: one metadata row.
`expiresAt = 0` models the Go zero `time.Time` (no expiry set); the field is
a non-pointer `time.Time` in the source, so it always holds some instant. -/
structure File where
  id : String
  userId : Int
  name : String
  size : Int
  contentType : String
  storagePath : String
  publicURL : String
  isPublic : Bool
  expiresAt : Time
  createdAt : Time
  updatedAt : Time
  deriving Repr, DecidableEq

/-- From `internal/models/models.go`, `type SharedFile struct`. -/
structure SharedFile where
  id : String
  fileId : String
  shareURL : String
  expiresAt : Time
  createdAt : Time
  deriving Repr, DecidableEq

/-- Association-list read modelling a Go map lookup. -/
def lookupA {β : Type} (l : List (String × β)) (k : String) : Option β :=
  (l.find? (fun p => p.1 == k)).map (fun p => p.2)

/-- Association-list write modelling a Go map assignment `m[k] = v`. -/
def insertA {β : Type} (l : List (String × β)) (k : String) (v : β) :
    List (String × β) :=
  (k, v) :: l.filter (fun p => !(p.1 == k))

/-- Association-list removal modelling Go `delete(m, k)`. -/
def eraseA {β : Type} (l : List (String × β)) (k : String) :
    List (String × β) :=
  l.filter (fun p => !(p.1 == k))

/-- The mutable state visible to the File Lifecycle Service: the blob store
(set of present storage keys, the local-disk variant), the metadata store
(`files` and `shared_files` rows), and the File Cache Facade's two key
spaces (`file:{id}` entries and `user_files:{userID}` entries; the facade
serializes values to JSON, which we keep as typed values since
marshal/unmarshal round-trips). -/
structure World where
  blobs : List String
  rows : List File
  shares : List SharedFile
  cacheFiles : List (String × File)
  cacheUser : List (String × List File)
  deriving Repr, DecidableEq

/-- Cache key for a single file, from `pkg/cache/cache.go`
`fmt.Sprintf("file:%s", fileID)`. -/
def fileKey (fileID : String) : String := "file:" ++ fileID

/-- Cache key for a user listing, from `pkg/cache/cache.go`
`fmt.Sprintf("user_files:%d", userID)`. -/
def userKey (userID : Int) : String := "user_files:" ++ toString userID

/-- From `pkg/encryption/encryption.go` (storage), `LocalStorage.Delete`:
`os.Remove(filepath.Join(basePath, storagePath))`, wrapping any error as
`failed to delete file: %w`.  `os.Remove` fails with a not-exist error when
the path is absent, so deletion of an absent key is an error, not a no-op. -/
def localDelete (blobs : List String) (storagePath : String) :
    Except String (List String) :=
  if storagePath ∈ blobs then .ok (blobs.erase storagePath)
  else .error "failed to delete file: remove: no such file or directory"

/-- From `internal/db/file_repository.go`, `GetFileByID`:
`SELECT ... FROM files WHERE id = $1` via `db.Get`, which returns
`sql: no rows in result set` when nothing matches, wrapped as
`failed to get file by ID: %w`. -/
def repoGetFileByID (rows : List File) (id : String) : Except String File :=
  match rows.find? (fun f => f.id == id) with
  | some f => .ok f
  | none => .error "failed to get file by ID: sql: no rows in result set"

/-- From `internal/db/file_repository.go`, `DeleteFile`:
`DELETE FROM files WHERE id = $1 AND user_id = $2`; zero affected rows is
reported as `file not found or not owned by user`. -/
def repoDeleteFile (rows : List File) (id : String) (userID : Int) :
    Except String (List File) :=
  let remaining := rows.filter (fun f => !(f.id == id && f.userId == userID))
  if remaining.length == rows.length then
    .error "file not found or not owned by user"
  else .ok remaining

/-- From `internal/service` (encryption.go), `FileService.UploadFile`.
`uploadRes` is the outcome of `storage.Upload(fileContent, fileName,
contentType)`: `.ok (storagePath, publicURL)` on success (the named key has
then been written to the blob store), `.error e` on failure.  `insertErr`
injects the outcome of `fileRepo.CreateFile` (`some e` = the INSERT failed);
on success `CreateFile` assigns the fresh UUID `newId` and stamps
`CreatedAt`/`UpdatedAt` with `now`.  The compensating
`_ = s.storage.Delete(storagePath)` discards its own error. -/
def uploadFile (w : World) (uploadRes : Except String (String × String))
    (insertErr : Option String) (newId : String) (now : Time)
    (userID : Int) (fileName : String) (fileSize : Int)
    (contentType : String) : Except String File × World :=
  match uploadRes with
  | .error e => (.error ("failed to upload file: " ++ e), w)
  | .ok (storagePath, publicURL) =>
    let w1 : World := { w with blobs := storagePath :: w.blobs }
    match insertErr with
    | some e =>
      let blobs2 := match localDelete w1.blobs storagePath with
        | .ok b => b
        | .error _ => w1.blobs
      (.error ("failed to save file metadata: " ++ e),
        { w1 with blobs := blobs2 })
    | none =>
      let file : File :=
        { id := newId, userId := userID, name := fileName, size := fileSize
          contentType := contentType, storagePath := storagePath
          publicURL := publicURL, isPublic := false, expiresAt := 0
          createdAt := now, updatedAt := now }
      let w2 : World := { w1 with rows := file :: w1.rows }
      let w3 : World :=
        { w2 with cacheUser := eraseA w2.cacheUser (userKey userID) }
      let w4 : World :=
        { w3 with cacheFiles := insertA w3.cacheFiles (fileKey newId) file }
      (.ok file, w4)

/-- From `FileService.GetFile`: cache-first read of a single file; on a
miss, fall back to `fileRepo.GetFileByID` and (best-effort) populate the
cache.  Note the function takes no time argument at all: the read path
never consults the record's own `ExpiresAt`. -/
def getFile (w : World) (fileID : String) : Except String File × World :=
  match lookupA w.cacheFiles (fileKey fileID) with
  | some f => (.ok f, w)
  | none =>
    match repoGetFileByID w.rows fileID with
    | .error e => (.error ("failed to get file: " ++ e), w)
    | .ok f =>
      (.ok f, { w with cacheFiles := insertA w.cacheFiles (fileKey fileID) f })

/-- Typed view of `FileService.UpdateFile`'s `map[string]interface{}`
payload: each recognized key is present (with a value of the type the
service's type assertion expects) or absent.  The `expires_in` value is the
raw duration string, exactly as the service receives it. -/
structure FileUpdates where
  name : Option String
  isPublic : Option Bool
  expiresIn : Option String
  deriving Repr, DecidableEq

/-- From `internal/db/file_repository.go`, `UpdateFile`: stamps
`file.UpdatedAt = time.Now()`, then runs `UPDATE files SET name = $1,
is_public = $2, expires_at = $3, updated_at = $4 WHERE id = $5 AND
user_id = $6`; zero affected rows is reported as `file not found or not
owned by user`.  Only those four columns change; the stamped record is
returned alongside the new table state (the Go code mutates it through the
pointer). -/
def repoUpdateFile (rows : List File) (f : File) (now : Time) :
    Except String (List File × File) :=
  let f4 := { f with updatedAt := now }
  let hit := fun r : File => r.id == f4.id && r.userId == f4.userId
  if rows.countP hit == 0 then
    .error "file not found or not owned by user"
  else
    .ok (rows.map (fun r =>
      if hit r then
        { r with name := f4.name, isPublic := f4.isPublic
                 expiresAt := f4.expiresAt, updatedAt := f4.updatedAt }
      else r), f4)

/-- The field-application block of `FileService.UpdateFile`: `name` is set
if a string is present under `"name"`, `is_public` if a bool is present
under `"is_public"`, and `expires_at := time.Now().Add(d)` if a string is
present under `"expires_in"` and `time.ParseDuration` parses it as `d` — a
parse failure is silently ignored.  `parseDuration` is the oracle modelling
`time.ParseDuration` (`none` = parse error). -/
def applyUpdates (parseDuration : String → Option Int) (file : File)
    (u : FileUpdates) (now : Time) : File :=
  let f1 := match u.name with
    | some n => { file with name := n }
    | none => file
  let f2 := match u.isPublic with
    | some p => { f1 with isPublic := p }
    | none => f1
  match u.expiresIn with
  | some s => match parseDuration s with
    | some d => { f2 with expiresAt := now + d }
    | none => f2
  | none => f2

/-- From `FileService.UpdateFile`: load the record, verify ownership, apply
exactly the provided fields (`applyUpdates`), persist via `repoUpdateFile`
(which stamps `updated_at`), then invalidate — not refresh — both the
single-file and the owner-listing cache entries, and return the updated
record. -/
def updateFile (parseDuration : String → Option Int) (w : World)
    (fileID : String) (userID : Int) (u : FileUpdates) (now : Time) :
    Except String File × World :=
  match repoGetFileByID w.rows fileID with
  | .error e => (.error ("failed to get file: " ++ e), w)
  | .ok file =>
    if file.userId ≠ userID then
      (.error "not authorized to update this file", w)
    else
      let f3 := applyUpdates parseDuration file u now
      match repoUpdateFile w.rows f3 now with
      | .error e => (.error ("failed to update file: " ++ e), w)
      | .ok res =>
        let w1 : World := { w with rows := res.1 }
        let w2 : World :=
          { w1 with cacheFiles := eraseA w1.cacheFiles (fileKey fileID) }
        let w3 : World :=
          { w2 with cacheUser := eraseA w2.cacheUser (userKey userID) }
        (.ok res.2, w3)

/-- From `FileService.DeleteFile` (explicit delete, local blob store): load
the record, verify ownership, delete the blob, delete the metadata row,
invalidate the single-file and owner-listing cache entries. -/
def deleteFile (w : World) (fileID : String) (userID : Int) :
    Except String Unit × World :=
  match repoGetFileByID w.rows fileID with
  | .error e => (.error ("failed to get file: " ++ e), w)
  | .ok file =>
    if file.userId ≠ userID then
      (.error "not authorized to delete this file", w)
    else
      match localDelete w.blobs file.storagePath with
      | .error e => (.error ("failed to delete file from storage: " ++ e), w)
      | .ok blobs2 =>
        let w1 : World := { w with blobs := blobs2 }
        match repoDeleteFile w1.rows fileID userID with
        | .error e => (.error ("failed to delete file metadata: " ++ e), w1)
        | .ok rows2 =>
          let w2 : World := { w1 with rows := rows2 }
          let w3 : World :=
            { w2 with cacheFiles := eraseA w2.cacheFiles (fileKey fileID) }
          let w4 : World :=
            { w3 with cacheUser := eraseA w3.cacheUser (userKey userID) }
          (.ok (), w4)

/-- From `internal/db/file_repository.go`, `GetSharedFile`:
`SELECT ... FROM shared_files WHERE share_url = $1` via `db.Get`, wrapping
the no-rows error as `failed to get shared file: %w`. -/
def repoGetSharedFile (shares : List SharedFile) (shareURL : String) :
    Except String SharedFile :=
  match shares.find? (fun s => s.shareURL == shareURL) with
  | some s => .ok s
  | none => .error "failed to get shared file: sql: no rows in result set"

/-- From `FileService.GetSharedFile`: resolve the ShareLink by token, fail
if the link itself is expired (`!ExpiresAt.IsZero() && Now().After(...)`),
then resolve the referenced file through the cache-first `getFile` path.
The file's own `ExpiresAt` is never consulted. -/
def getSharedFile (w : World) (shareID : String) (now : Time) :
    Except String File × World :=
  match repoGetSharedFile w.shares shareID with
  | .error e => (.error ("shared file not found: " ++ e), w)
  | .ok sharedFile =>
    if sharedFile.expiresAt ≠ 0 ∧ now > sharedFile.expiresAt then
      (.error "share link has expired", w)
    else
      let res := getFile w sharedFile.fileId
      match res.1 with
      | .error e => (.error ("failed to get shared file: " ++ e), res.2)
      | .ok f => (.ok f, res.2)

/-- From `internal/db/file_repository.go`, `GetExpiredFiles`:
`SELECT ... FROM files WHERE expires_at IS NOT NULL AND expires_at < NOW()
LIMIT $1`.  `CreateFile` always binds `$9` to the non-pointer
`file.ExpiresAt`, so the column is never SQL NULL — when no expiry is set
the Go zero time `0001-01-01 00:00:00` is stored (lib/pq renders the zero
`time.Time` as that timestamp).  The `IS NOT NULL` conjunct is therefore
always true on rows this application wrote, and the filter reduces to
`expires_at < NOW()`; the zero time is modelled as `0`, in the past of
every realistic `now > 0`. -/
def repoGetExpiredFiles (rows : List File) (now : Time) (batchSize : Nat) :
    List File :=
  (rows.filter (fun f => f.expiresAt < now)).take batchSize

/-- From `internal/db/file_repository.go`, `DeleteExpiredFiles`:
`DELETE FROM files WHERE id IN (SELECT id FROM files WHERE expires_at IS
NOT NULL AND expires_at < NOW() LIMIT $1)`, returning the affected-row
count.  Same NULL analysis as `repoGetExpiredFiles`. -/
def repoDeleteExpiredFiles (rows : List File) (now : Time)
    (batchSize : Nat) : List File × Nat :=
  let victims := (repoGetExpiredFiles rows now batchSize).map (fun f => f.id)
  let remaining := rows.filter (fun f => !(victims.contains f.id))
  (remaining, rows.length - remaining.length)

/-- One iteration of the loop body in `FileService.CleanupExpiredFiles`:
attempt the blob deletion; on error, `continue` (skip); on success,
invalidate both cache entries and count the success. -/
def cleanupStep (acc : World × Nat) (f : File) : World × Nat :=
  match localDelete acc.1.blobs f.storagePath with
  | .error _ => acc
  | .ok blobs2 =>
    let w1 : World := { acc.1 with blobs := blobs2 }
    let w2 : World :=
      { w1 with cacheFiles := eraseA w1.cacheFiles (fileKey f.id) }
    let w3 : World :=
      { w2 with cacheUser := eraseA w2.cacheUser (userKey f.userId) }
    (w3, acc.2 + 1)

/-- From `FileService.CleanupExpiredFiles` (one sweep tick): fetch a batch
of expired rows, attempt each blob deletion (failures are skipped, not
fatal), then — if the batch was non-empty — bulk-delete the expired rows
from the database and return that delete's affected-row count; with an
empty batch, return the (zero) success counter. -/
def cleanupExpiredFiles (w : World) (now : Time) (batchSize : Nat) :
    Nat × World :=
  let files := repoGetExpiredFiles w.rows now batchSize
  let acc := files.foldl cleanupStep (w, 0)
  if files.length > 0 then
    let del := repoDeleteExpiredFiles acc.1.rows now batchSize
    (del.2, { acc.1 with rows := del.1 })
  else
    (acc.2, acc.1)

/-- From `pkg/cache/cache.go`, `type cacheItem struct`: a stored value and
its absolute expiration instant.  Values are kept typed (`α`) where the Go
code stores `json.Marshal`ed bytes; marshal/unmarshal round-trips. -/
structure CacheItem (α : Type) where
  value : α
  expiration : Time
  deriving Repr, DecidableEq

/-- From `pkg/cache/cache.go`, `type MemoryCache struct`: the in-process
backend's `map[string]cacheItem`. -/
structure MemoryCache (α : Type) where
  data : List (String × CacheItem α)
  deriving Repr, DecidableEq

namespace MemoryCache

/-- From `MemoryCache.Set`: `c.data[key] = cacheItem{value, Now().Add(ttl)}`. -/
def set {α : Type} (c : MemoryCache α) (now : Time) (key : String) (v : α)
    (ttl : Int) : MemoryCache α :=
  ⟨insertA c.data key ⟨v, now + ttl⟩⟩

/-- From `MemoryCache.Get`: a missing key yields the error
`key not found in cache`; a present-but-expired item (`Now().After(exp)`)
is deleted from the map (lazy eviction) and yields the error
`key not found in cache (expired)`; otherwise the value is returned. -/
def get {α : Type} (c : MemoryCache α) (now : Time) (key : String) :
    Except String α × MemoryCache α :=
  match lookupA c.data key with
  | none => (.error "key not found in cache", c)
  | some item =>
    if now > item.expiration then
      (.error "key not found in cache (expired)", ⟨eraseA c.data key⟩)
    else
      (.ok item.value, c)

/-- From `MemoryCache.Delete`: `delete(c.data, key)`, never an error. -/
def del {α : Type} (c : MemoryCache α) (key : String) : MemoryCache α :=
  ⟨eraseA c.data key⟩

end MemoryCache

/-- Outcome of one pass through the rate-limiting middleware: either the
request is forwarded to the next handler, or it is rejected with HTTP 429
and the value of the `Retry-After` header (seconds). -/
inductive LimitOutcome where
  | allowed
  | denied (retryAfter : Int)
  deriving Repr, DecidableEq

/-- From the middleware source, `type RateLimiter struct` (configuration). -/
structure RateLimiter where
  maxRequests : Int
  windowSeconds : Int
  deriving Repr, DecidableEq

/-- Decimal-digit accumulator for `goAtoi` (structural recursion so that
concrete runs reduce inside the kernel). -/
def atoiDigits : Nat → List Char → Option Nat
  | acc, [] => some acc
  | acc, c :: rest =>
    if c.isDigit then atoiDigits (acc * 10 + (c.toNat - '0'.toNat)) rest
    else none

/-- Go `strconv.Atoi`: an optional sign followed by at least one decimal
digit; anything else is an error (`none`, in which case the caller's
`count` stays 0).  The rate limiter only ever stores decimal renderings of
its counter, so this covers every string the code can read back. -/
def goAtoi (s : String) : Option Int :=
  match s.data with
  | [] => none
  | '-' :: rest =>
    if rest.isEmpty then none
    else (atoiDigits 0 rest).map (fun n => -(n : Int))
  | '+' :: rest =>
    if rest.isEmpty then none
    else (atoiDigits 0 rest).map (fun n => (n : Int))
  | cs => (atoiDigits 0 cs).map (fun n => (n : Int))

/-- From `RateLimiter.Limit` (middleware source): build the key
`ratelimit:<identifier>`, read the current count from the cache (a failed
read or parse leaves it 0), deny with `Retry-After = windowSeconds` when
`count >= maxRequests`, otherwise store `Itoa(count+1)` with TTL equal to
the window length and forward the request.  The cache is the in-process
backend; `identifier` is the authenticated user id or the remote address,
both opaque here. -/
def RateLimiter.limit (rl : RateLimiter) (c : MemoryCache String)
    (now : Time) (identifier : String) : LimitOutcome × MemoryCache String :=
  let key := "ratelimit:" ++ identifier
  let res := MemoryCache.get c now key
  let count : Int := match res.1 with
    | .ok s => (goAtoi s).getD 0
    | .error _ => 0
  if count ≥ rl.maxRequests then
    (.denied rl.windowSeconds, res.2)
  else
    (.allowed, res.2.set now key (toString (count + 1)) rl.windowSeconds)

/-- The "cached count for an identity" the rate-limiter claim speaks of:
the counter stored under `key` if a live (unexpired) entry exists, else 0.
A spec-level view of the cache used to state the limiter's behavior. -/
def cachedCount (c : MemoryCache String) (now : Time) (key : String) : Int :=
  match lookupA c.data key with
  | some item =>
    if now > item.expiration then 0 else (goAtoi item.value).getD 0
  | none => 0

/-- Seconds until the rate window for `key` actually ends, read off the
cache entry's expiration instant.  Modelled from the spec: "deny and report
the window's remaining seconds" — the quantity §4.6 says a denial reports;
defined here only to compare against what the code reports. -/
def windowRemainingSeconds (c : MemoryCache String) (now : Time)
    (key : String) : Option Int :=
  (lookupA c.data key).map (fun item => item.expiration - now)

/-- Go `path/filepath.Ext` on the reversed character list: collect
characters until the last `.` of the final path element (return them as the
extension, dot included) or give up at a path separator or the start. -/
def extRevAux : List Char → List Char → Option (List Char)
  | _, [] => none
  | acc, c :: rest =>
    if c = '.' then some (c :: acc)
    else if c = '/' then none
    else extRevAux (c :: acc) rest

/-- From Go `path/filepath.Ext(fileName)`: the suffix beginning at the
final dot in the final slash-separated element, or `""` if there is none. -/
def filepathExt (fileName : String) : String :=
  match extRevAux [] fileName.data.reverse with
  | some cs => ⟨cs⟩
  | none => ""

/-- From `LocalStorage.Upload`: the returned relative storage key is
`filepath.Join(time.Now().Format("2006/01/02"), uuid.New().String()+ext)`.
`date` is the server-local date rendered as `YYYY/MM/DD` and `uuid` the
fresh identifier, both generated inside the call. -/
def localUploadKey (date uuid fileName : String) : String :=
  date ++ "/" ++ uuid ++ filepathExt fileName

/-- From `S3Storage.Upload`: the object key is
`fmt.Sprintf("uploads/%s/%s", time.Now().Format("2006/01/02"),
uuid.New().String())` plus the original extension when present. -/
def s3UploadKey (date uuid fileName : String) : String :=
  "uploads/" ++ date ++ "/" ++ uuid ++ filepathExt fileName

/-- Modelled from the spec: a storage key "has the UTC-date-partitioned
form `YYYY/MM/DD/<random>`", i.e. the key begins with the date partition
followed by a separator.  Stated over the claim's date string so it can be
compared with what the code generates. -/
def hasDatePartitionedForm (date key : String) : Bool :=
  List.isPrefixOf (date ++ "/").data key.data

/-- Sample expired row: `expires_at = 50`, in the past of `now = 100`. -/
def fExp : File :=
  ⟨"e1", 1, "a.txt", 3, "text/plain", "2025/10/11/ua.txt",
    "http://x/ua", false, 50, 10, 10⟩

/-- Sample no-expiry row: `ExpiresAt` is the Go zero time (modelled 0). -/
def fNoExp : File :=
  ⟨"n1", 2, "b.txt", 4, "text/plain", "2025/10/11/ub.txt",
    "http://x/ub", false, 0, 10, 10⟩

/-- Store holding one expired and one no-expiry file, both blobs present. -/
def wSweep : World :=
  ⟨["2025/10/11/ua.txt", "2025/10/11/ub.txt"], [fExp, fNoExp], [], [], []⟩

/-- Row whose backing blob is already gone from the blob store. -/
def fGhost : File :=
  ⟨"g1", 1, "g.txt", 3, "text/plain", "2025/10/11/ug.txt",
    "http://x/ug", false, 0, 10, 10⟩

/-- World with `fGhost`'s metadata row but an empty blob store. -/
def wGhost : World := ⟨[], [fGhost], [], [], []⟩

/-- Row with an expiry in the future of `now = 100`. -/
def fFuture : File :=
  ⟨"t1", 1, "t.txt", 3, "text/plain", "2025/10/11/ut.txt",
    "http://x/ut", false, 200, 10, 10⟩

/-- World holding only the not-yet-expired `fFuture`. -/
def wFuture : World := ⟨["2025/10/11/ut.txt"], [fFuture], [], [], []⟩

/-- Share link whose own expiry (10) has passed at `now = 20`. -/
def shTokExpired : SharedFile := ⟨"s1", "f1", "tok", 10, 1⟩

/-- World with no share links at all. -/
def wNoShare : World := ⟨[], [], [], [], []⟩

/-- World whose only share link is the expired `shTokExpired`. -/
def wShareExpired : World := ⟨[], [], [shTokExpired], [], []⟩

/-- Empty in-process cache. -/
def cEmptyMC : MemoryCache String := ⟨[]⟩

/-- Cache holding one entry for `k` whose expiration (10) is past at 20. -/
def cExpiredMC : MemoryCache String := ⟨[("k", ⟨"v", 10⟩)]⟩

/-- Cache holding one entry for `k` still live at `now = 20`. -/
def cLiveMC : MemoryCache String := ⟨[("k", ⟨"v", 30⟩)]⟩

/-- Rate limiter configured for 1 request per 10-second window. -/
def rlOne : RateLimiter := ⟨1, 10⟩

/-- Cache state after one allowed request at `t = 0` under `rlOne`. -/
def cAfterOne : MemoryCache String :=
  (RateLimiter.limit rlOne ⟨[]⟩ 0 "u").2

/-- Rate limiter configured for 3 requests per 10-second window. -/
def rlThree : RateLimiter := ⟨3, 10⟩

/-- Scenario run: first request at t = 0 from an empty cache. -/
def limitRun1 : LimitOutcome × MemoryCache String :=
  RateLimiter.limit rlThree ⟨[]⟩ 0 "u"

/-- Scenario run: second request at t = 1. -/
def limitRun2 : LimitOutcome × MemoryCache String :=
  RateLimiter.limit rlThree limitRun1.2 1 "u"

/-- Scenario run: third request at t = 2. -/
def limitRun3 : LimitOutcome × MemoryCache String :=
  RateLimiter.limit rlThree limitRun2.2 2 "u"

/-- Scenario run: fourth request at t = 3, still inside the window. -/
def limitRun4 : LimitOutcome × MemoryCache String :=
  RateLimiter.limit rlThree limitRun3.2 3 "u"

/-- Scenario run: request at t = 13, after the window has elapsed. -/
def limitRun5 : LimitOutcome × MemoryCache String :=
  RateLimiter.limit rlThree limitRun3.2 13 "u"

/-- Oracle for `time.ParseDuration`: parses the valid duration string
`"1h"` (3600 s) and rejects everything else — in particular `"zzz"`, which
the real `ParseDuration` also rejects. -/
def pdModel : String → Option Int :=
  fun s => if s = "1h" then some 3600 else none

/-- Row owned by user 1, no expiry set, used for update scenarios. -/
def fUpd : File :=
  ⟨"f8", 1, "old", 3, "text/plain", "2025/10/11/u8.txt",
    "http://x/u8", false, 0, 10, 10⟩

/-- World with `fUpd` present in all three stores. -/
def wUpd : World :=
  ⟨["2025/10/11/u8.txt"], [fUpd], [], [("file:f8", fUpd)],
    [("user_files:1", [fUpd])]⟩

/-- Update payload providing only an (unparsable) expiry duration. -/
def u8 : FileUpdates := ⟨none, none, some "zzz"⟩

/-- Update payload providing all three recognized fields, expiry valid. -/
def uGood : FileUpdates := ⟨some "new", some true, some "1h"⟩

/-- Row owned by user 1 with its blob present, used for delete scenarios. -/
def fDel : File :=
  ⟨"d1", 1, "d.txt", 5, "text/plain", "2025/10/11/ud.txt",
    "http://x/ud", false, 0, 10, 10⟩

/-- World with `fDel` in all three stores (blob, rows, both cache keys). -/
def wDel : World :=
  ⟨["2025/10/11/ud.txt"], [fDel], [], [("file:d1", fDel)],
    [("user_files:1", [fDel])]⟩

/-- Row whose `expires_at = 50` is already past at read time 100. -/
def fPast : File :=
  ⟨"p1", 1, "p.txt", 3, "text/plain", "2025/10/11/up.txt",
    "http://x/up", false, 50, 10, 10⟩

/-- Live share link (no expiry) pointing at the expired-but-unswept row. -/
def linkLive : SharedFile := ⟨"s2", "p1", "tk", 0, 1⟩

/-- World for the read-path scenarios: `fPast` on disk and in the metadata
store, referenced by `linkLive`, not yet cached. -/
def wRead : World :=
  ⟨["2025/10/11/up.txt"], [fPast], [linkLive], [], []⟩

theorem lookupA_insertA_self {β : Type} (l : List (String × β)) (k : String)
    (v : β) : lookupA (insertA l k v) k = some v := by
  simp [lookupA, insertA]

theorem lookupA_eraseA_self {β : Type} (l : List (String × β)) (k : String) :
    lookupA (eraseA l k) k = none := by
  have h : (eraseA l k).find? (fun p => p.1 == k) = none := by
    rw [List.find?_eq_none]
    intro x hx
    have hpred := (List.mem_filter.mp hx).2
    simp at hpred ⊢
    exact hpred
  simp [lookupA, h]

theorem isPrefixOf_self_append {α : Type} [BEq α] [LawfulBEq α]
    (a t : List α) : List.isPrefixOf a (a ++ t) = true := by
  induction a with
  | nil => cases t <;> rfl
  | cons x xs ih => simp [List.isPrefixOf, ih]

theorem cleanup_foldl_rows (files : List File) (acc : World × Nat) :
    (files.foldl cleanupStep acc).1.rows = acc.1.rows := by
  induction files generalizing acc with
  | nil => rfl
  | cons f t ih =>
    rw [List.foldl_cons, ih]
    cases h : localDelete acc.1.blobs f.storagePath with
    | error e => simp [cleanupStep, h]
    | ok b => simp [cleanupStep, h]

theorem repoGet_find {rows : List File} {fid : String} {f : File}
    (hf : repoGetFileByID rows fid = .ok f) :
    rows.find? (fun g => g.id == fid) = some f := by
  unfold repoGetFileByID at hf
  cases h : rows.find? (fun g => g.id == fid) with
  | none => rw [h] at hf; exact absurd hf (by simp)
  | some g =>
    rw [h] at hf
    simp only [Except.ok.injEq] at hf
    rw [hf]

theorem repoDeleteFile_ok {rows : List File} {fid : String} {uid : Int}
    {f : File} (hf : repoGetFileByID rows fid = .ok f)
    (hown : f.userId = uid) :
    repoDeleteFile rows fid uid
      = .ok (rows.filter (fun r => !(r.id == fid && r.userId == uid))) := by
  have hfind := repoGet_find hf
  have hid : (f.id == fid) = true := by
    have hp := List.find?_some hfind
    simpa using hp
  have hmem : f ∈ rows := List.mem_of_find?_eq_some hfind
  have hcount : ((rows.filter
      (fun r => !(r.id == fid && r.userId == uid))).length
        == rows.length) = false := by
    rw [beq_eq_false_iff_ne]
    intro hlen
    have := List.filter_length_eq_length.mp hlen f hmem
    rw [hid, hown] at this
    simp at this
  unfold repoDeleteFile
  simp only [hcount, Bool.false_eq_true, if_false]

theorem deleteFile_ok {w : World} {fid : String} {uid : Int} {f : File}
    (hf : repoGetFileByID w.rows fid = .ok f) (hown : f.userId = uid)
    (hb : f.storagePath ∈ w.blobs) :
    deleteFile w fid uid =
      (.ok (),
        { blobs := w.blobs.erase f.storagePath
          rows := w.rows.filter (fun r => !(r.id == fid && r.userId == uid))
          shares := w.shares
          cacheFiles := eraseA w.cacheFiles (fileKey fid)
          cacheUser := eraseA w.cacheUser (userKey uid) }) := by
  have howncond : ¬(f.userId ≠ uid) := by simp [hown]
  simp only [deleteFile, hf, if_neg howncond, localDelete, if_pos hb,
    repoDeleteFile_ok hf hown]

theorem deleteFile_storage_error {w : World} {fid : String} {uid : Int}
    {f : File} (hf : repoGetFileByID w.rows fid = .ok f)
    (hown : f.userId = uid) (hb : f.storagePath ∉ w.blobs) :
    deleteFile w fid uid =
      (.error ("failed to delete file from storage: " ++
        "failed to delete file: remove: no such file or directory"), w) := by
  have howncond : ¬(f.userId ≠ uid) := by simp [hown]
  simp only [deleteFile, hf, if_neg howncond, localDelete, if_neg hb]

theorem deleteFile_row_missing {w : World} {fid : String} {uid : Int}
    (hnone : w.rows.find? (fun g => g.id == fid) = none) :
    deleteFile w fid uid =
      (.error ("failed to get file: " ++
        "failed to get file by ID: sql: no rows in result set"), w) := by
  simp [deleteFile, repoGetFileByID, hnone]

theorem applyUpdates_id (pd : String → Option Int) (f : File)
    (u : FileUpdates) (now : Time) : (applyUpdates pd f u now).id = f.id := by
  rcases u with ⟨n, p, e⟩
  rcases e with _ | s
  · cases n <;> cases p <;> simp [applyUpdates]
  · cases hpd : pd s <;> cases n <;> cases p <;> simp [applyUpdates, hpd]

theorem applyUpdates_userId (pd : String → Option Int) (f : File)
    (u : FileUpdates) (now : Time) :
    (applyUpdates pd f u now).userId = f.userId := by
  rcases u with ⟨n, p, e⟩
  rcases e with _ | s
  · cases n <;> cases p <;> simp [applyUpdates]
  · cases hpd : pd s <;> cases n <;> cases p <;> simp [applyUpdates, hpd]

theorem applyUpdates_fields (pd : String → Option Int) (f : File)
    (u : FileUpdates) (now : Time) :
    (applyUpdates pd f u now).name = u.name.getD f.name
    ∧ (applyUpdates pd f u now).isPublic = u.isPublic.getD f.isPublic
    ∧ (applyUpdates pd f u now).expiresAt
        = (match u.expiresIn with
           | some s => match pd s with
             | some d => now + d
             | none => f.expiresAt
           | none => f.expiresAt)
    ∧ (applyUpdates pd f u now).size = f.size
    ∧ (applyUpdates pd f u now).contentType = f.contentType
    ∧ (applyUpdates pd f u now).storagePath = f.storagePath
    ∧ (applyUpdates pd f u now).publicURL = f.publicURL
    ∧ (applyUpdates pd f u now).createdAt = f.createdAt
    ∧ (applyUpdates pd f u now).updatedAt = f.updatedAt := by
  rcases u with ⟨n, p, e⟩
  rcases e with _ | s
  · cases n <;> cases p <;> simp [applyUpdates]
  · cases hpd : pd s <;> cases n <;> cases p <;> simp [applyUpdates, hpd]

theorem repoUpdateFile_ok (rows : List File) (f3 : File) (now : Time)
    (hx : ∃ r ∈ rows, r.id = f3.id ∧ r.userId = f3.userId) :
    repoUpdateFile rows f3 now
      = .ok (rows.map (fun r =>
          if r.id == f3.id && r.userId == f3.userId then
            { r with name := f3.name, isPublic := f3.isPublic
                     expiresAt := f3.expiresAt, updatedAt := now }
          else r), { f3 with updatedAt := now }) := by
  have hcnt : ¬(rows.countP
      (fun r => r.id == f3.id && r.userId == f3.userId) = 0) := by
    rw [List.countP_eq_zero]
    intro hall
    rcases hx with ⟨r, hr, hid, huid⟩
    have := hall r hr
    simp [hid, huid] at this
  unfold repoUpdateFile
  rw [if_neg (by simpa using hcnt)]

/-- C1: For every upload, the blob is written to the Blob Store before any
metadata insert (a failed blob write returns an error with the metadata
store, cache and blob store untouched, so no insert precedes the write);
if the metadata insert fails, UploadFile deletes the just-written blob
again (best-effort, leaving the blob store as it was), returns an error,
and writes no cache entries; if the insert succeeds, it invalidates the
requesting user's listing cache entry, populates the single-file cache
entry with the created record, and returns the created record. -/
theorem C1_upload_blob_first_compensate_and_cache (w : World)
    (uploadErr insertErrMsg k url newId fn ct : String) (uid sz : Int)
    (now : Time) :
    uploadFile w (.error uploadErr) none newId now uid fn sz ct
      = (.error ("failed to upload file: " ++ uploadErr), w)
    ∧ uploadFile w (.error uploadErr) (some insertErrMsg) newId now uid fn
        sz ct
      = (.error ("failed to upload file: " ++ uploadErr), w)
    ∧ uploadFile w (.ok (k, url)) (some insertErrMsg) newId now uid fn sz ct
      = (.error ("failed to save file metadata: " ++ insertErrMsg), w)
    ∧ uploadFile w (.ok (k, url)) none newId now uid fn sz ct
      = (.ok { id := newId, userId := uid, name := fn, size := sz
               contentType := ct, storagePath := k, publicURL := url
               isPublic := false, expiresAt := 0, createdAt := now
               updatedAt := now },
         { blobs := k :: w.blobs
           rows := { id := newId, userId := uid, name := fn, size := sz
                     contentType := ct, storagePath := k, publicURL := url
                     isPublic := false, expiresAt := 0, createdAt := now
                     updatedAt := now } :: w.rows
           shares := w.shares
           cacheFiles := insertA w.cacheFiles (fileKey newId)
             { id := newId, userId := uid, name := fn, size := sz
               contentType := ct, storagePath := k, publicURL := url
               isPublic := false, expiresAt := 0, createdAt := now
               updatedAt := now }
           cacheUser := eraseA w.cacheUser (userKey uid) }) := by
  refine ⟨rfl, rfl, ?_, rfl⟩
  simp [uploadFile, localDelete]

/-- C2: For an explicit delete by the owner, DeleteFile deletes the blob,
then the metadata row, then invalidates the single-file and owner-listing
cache entries; if the blob deletion errors, the operation aborts before
touching the metadata store or the cache, returning the world unchanged. -/
theorem C2_delete_blob_then_row_then_cache (w : World) (fid : String)
    (uid : Int) (f : File) (hf : repoGetFileByID w.rows fid = .ok f)
    (hown : f.userId = uid) :
    (f.storagePath ∈ w.blobs →
      deleteFile w fid uid =
        (.ok (),
          { blobs := w.blobs.erase f.storagePath
            rows := w.rows.filter (fun r => !(r.id == fid && r.userId == uid))
            shares := w.shares
            cacheFiles := eraseA w.cacheFiles (fileKey fid)
            cacheUser := eraseA w.cacheUser (userKey uid) }))
    ∧ (f.storagePath ∉ w.blobs →
      deleteFile w fid uid =
        (.error ("failed to delete file from storage: " ++
          "failed to delete file: remove: no such file or directory"), w)) :=
  ⟨fun hb => deleteFile_ok hf hown hb,
   fun hb => deleteFile_storage_error hf hown hb⟩

/-- C2 witness: a concrete owner delete with the blob present removes the
blob, the row, and both cache entries. -/
theorem C2_delete_blob_then_row_then_cache_witness :
    deleteFile wDel "d1" 1 =
      (.ok (),
        { blobs := wDel.blobs.erase fDel.storagePath
          rows := wDel.rows.filter (fun r => !(r.id == "d1" && r.userId == 1))
          shares := wDel.shares
          cacheFiles := eraseA wDel.cacheFiles (fileKey "d1")
          cacheUser := eraseA wDel.cacheUser (userKey 1) }) :=
  (C2_delete_blob_then_row_then_cache wDel "d1" 1 fDel (by decide)
    (by decide)).1 (by decide)

/-- C3 counterexample: the claim says an already-absent blob key is treated
as success, so an explicit delete whose blob is gone still removes the
metadata row and succeeds.  In the code `LocalStorage.Delete` propagates
the `os.Remove` not-exist error, so `DeleteFile` on `wGhost` (row present,
blob store empty) errors out and the metadata row survives. -/
theorem C3_absent_key_delete_counterexample :
    localDelete [] "2025/10/11/ug.txt"
      = .error "failed to delete file: remove: no such file or directory"
    ∧ (deleteFile wGhost "g1" 1).1 ≠ .ok ()
    ∧ (deleteFile wGhost "g1" 1).2.rows = [fGhost] := by decide

/-- C3 amended: `LocalStorage.Delete` on an absent key returns an error,
so an explicit DeleteFile whose blob is already gone aborts with an error
and leaves the world (metadata row included) unchanged; deleting a
nonexistent file id returns a not-found error rather than crashing; the
sweep path, by contrast, still removes the metadata rows of its batch
because the bulk DB delete is independent of per-file blob deletion. -/
theorem C3_delete_idempotence_amended :
    (∀ (blobs : List String) (p : String), p ∉ blobs →
      localDelete blobs p
        = .error "failed to delete file: remove: no such file or directory")
    ∧ (∀ (w : World) (fid : String) (uid : Int) (f : File),
      repoGetFileByID w.rows fid = .ok f → f.userId = uid →
      f.storagePath ∉ w.blobs →
      deleteFile w fid uid
        = (.error ("failed to delete file from storage: " ++
            "failed to delete file: remove: no such file or directory"), w))
    ∧ (∀ (w : World) (fid : String) (uid : Int),
      w.rows.find? (fun g => g.id == fid) = none →
      deleteFile w fid uid
        = (.error ("failed to get file: " ++
            "failed to get file by ID: sql: no rows in result set"), w))
    ∧ (∀ (w : World) (now : Time) (batch : Nat) (r : File),
      r ∈ (cleanupExpiredFiles w now batch).2.rows →
      r.id ∉ (repoGetExpiredFiles w.rows now batch).map File.id) := by
  refine ⟨?_, ?_, ?_, ?_⟩
  · intro blobs p hp
    simp [localDelete, hp]
  · intro w fid uid f hf hown hb
    exact deleteFile_storage_error hf hown hb
  · intro w fid uid hnone
    exact deleteFile_row_missing hnone
  · intro w now batch r hr
    simp only [cleanupExpiredFiles] at hr
    split at hr
    · simp only [repoDeleteExpiredFiles, cleanup_foldl_rows] at hr
      have hpred := (List.mem_filter.mp hr).2
      simp at hpred
      intro hmem
      rcases List.mem_map.mp hmem with ⟨x, hx, hxid⟩
      exact hpred x hx hxid
    · rename_i hlen
      have hnil : repoGetExpiredFiles w.rows now batch = [] := by
        have := Nat.eq_zero_of_not_pos hlen
        exact List.length_eq_zero.mp this
      rw [hnil]
      simp

/-- C3 amended witness: concrete instances — absent-key delete errors; the
explicit delete on `wGhost` aborts unchanged; deleting a nonexistent id on
an empty store reports the not-found error; a tick over `wFuture` keeps its
(unexpired) row, whose id is outside the (empty) expired batch. -/
theorem C3_delete_idempotence_amended_witness :
    localDelete [] "2025/10/11/ug.txt"
      = .error "failed to delete file: remove: no such file or directory"
    ∧ deleteFile wGhost "g1" 1
        = (.error ("failed to delete file from storage: " ++
            "failed to delete file: remove: no such file or directory"),
           wGhost)
    ∧ deleteFile wNoShare "zz" 1
        = (.error ("failed to get file: " ++
            "failed to get file by ID: sql: no rows in result set"), wNoShare)
    ∧ fFuture.id ∉ (repoGetExpiredFiles wFuture.rows 100 10).map File.id :=
  ⟨C3_delete_idempotence_amended.1 [] "2025/10/11/ug.txt" (by decide),
   C3_delete_idempotence_amended.2.1 wGhost "g1" 1 fGhost (by decide)
     (by decide) (by decide),
   C3_delete_idempotence_amended.2.2.1 wNoShare "zz" 1 (by decide),
   C3_delete_idempotence_amended.2.2.2 wFuture 100 10 fFuture (by decide)⟩

/-- C4 (bug exhibit): one sweep tick over `wSweep` — one genuinely expired
file and one file with no expiry set (Go zero `ExpiresAt`, stored as the
non-NULL timestamp `0001-01-01`) — deletes BOTH rows and both blobs and
returns 2, although the claim (and the spec's own scenario) requires the
no-expiry file to be left untouched; the immediately following tick then
deletes 0. -/
theorem C4_sweep_deletes_no_expiry_files :
    fNoExp.expiresAt = 0 ∧ fNoExp ∈ wSweep.rows
    ∧ fExp.expiresAt = 50 ∧ (50 : Int) < 100
    ∧ (cleanupExpiredFiles wSweep 100 10).1 = 2
    ∧ (cleanupExpiredFiles wSweep 100 10).2.rows = []
    ∧ (cleanupExpiredFiles wSweep 100 10).2.blobs = []
    ∧ (cleanupExpiredFiles (cleanupExpiredFiles wSweep 100 10).2 100 10).1
        = 0 := by decide

/-- C5 counterexample: the claim says a denial reports the window's
REMAINING seconds as retry-after.  With max = 1 per 10 s, a request at
t = 0 is allowed (entry expires at 10); the denial at t = 5 reports 10,
while the window's remaining time is 5. -/
theorem C5_retry_after_counterexample :
    (RateLimiter.limit rlOne cAfterOne 5 "u").1 = .denied 10
    ∧ windowRemainingSeconds cAfterOne 5 "ratelimit:u" = some 5
    ∧ (10 : Int) ≠ 5 := by decide

/-- C5 amended: the limiter denies a request iff the cached count for the
identity is at or above the configured maximum, and a denial reports the
CONFIGURED WINDOW LENGTH (an upper bound on the remaining seconds) as the
retry-after value; otherwise the counter is incremented and stored with TTL
equal to the window length and the request is allowed.  With max = 3 per
10-second window, three calls allow, a fourth within the window denies with
retry-after 10 ≤ 10, and a call after the window elapses allows again. -/
theorem C5_rate_limiter_amended (rl : RateLimiter) (c : MemoryCache String)
    (now : Time) (idf : String) :
    ((cachedCount c now ("ratelimit:" ++ idf) ≥ rl.maxRequests →
      (rl.limit c now idf).1 = .denied rl.windowSeconds)
    ∧ (cachedCount c now ("ratelimit:" ++ idf) < rl.maxRequests →
      (rl.limit c now idf).1 = .allowed
      ∧ lookupA (rl.limit c now idf).2.data ("ratelimit:" ++ idf)
          = some ⟨toString (cachedCount c now ("ratelimit:" ++ idf) + 1),
                  now + rl.windowSeconds⟩))
    ∧ (limitRun1.1 = .allowed ∧ limitRun2.1 = .allowed
       ∧ limitRun3.1 = .allowed ∧ limitRun4.1 = .denied 10
       ∧ (10 : Int) ≤ 10 ∧ limitRun5.1 = .allowed) := by
  have hcount : (match (MemoryCache.get c now ("ratelimit:" ++ idf)).1 with
      | .ok s => (goAtoi s).getD 0
      | .error _ => 0) = cachedCount c now ("ratelimit:" ++ idf) := by
    unfold MemoryCache.get cachedCount
    cases h : lookupA c.data ("ratelimit:" ++ idf) with
    | none => simp
    | some item => by_cases hexp : now > item.expiration <;> simp [hexp]
  refine ⟨⟨?_, ?_⟩, by decide⟩
  · intro hge
    simp only [RateLimiter.limit, hcount]
    rw [if_pos hge]
  · intro hlt
    have hnge : ¬(cachedCount c now ("ratelimit:" ++ idf)
        ≥ rl.maxRequests) := not_le.mpr hlt
    refine ⟨?_, ?_⟩
    · simp only [RateLimiter.limit, hcount]
      rw [if_neg hnge]
    · simp only [RateLimiter.limit, hcount]
      rw [if_neg hnge]
      simp [MemoryCache.set, lookupA_insertA_self]

/-- C5 amended witness: concrete denial (count 1 ≥ max 1 at t = 5) and
concrete allowance (count 0 < max 1 from an empty cache at t = 0, storing
counter "1" with expiration 0 + 10). -/
theorem C5_rate_limiter_amended_witness :
    (cachedCount cAfterOne 5 ("ratelimit:" ++ "u") ≥ rlOne.maxRequests
     ∧ (RateLimiter.limit rlOne cAfterOne 5 "u").1
         = .denied rlOne.windowSeconds)
    ∧ (cachedCount cEmptyMC 0 ("ratelimit:" ++ "u") < rlOne.maxRequests
       ∧ ((RateLimiter.limit rlOne cEmptyMC 0 "u").1 = .allowed
          ∧ lookupA (RateLimiter.limit rlOne cEmptyMC 0 "u").2.data
              ("ratelimit:" ++ "u")
            = some ⟨toString (cachedCount cEmptyMC 0 ("ratelimit:" ++ "u")
                      + 1), 0 + rlOne.windowSeconds⟩)) :=
  ⟨⟨by decide,
    (C5_rate_limiter_amended rlOne cAfterOne 5 "u").1.1 (by decide)⟩,
   ⟨by decide,
    (C5_rate_limiter_amended rlOne cEmptyMC 0 "u").1.2 (by decide)⟩⟩

/-- C6 counterexample: the claim says the in-process Get yields an
indistinguishable Miss with no distinguishing error for never-set versus
expired keys; in the code the two error messages differ. -/
theorem C6_miss_error_shape_counterexample :
    (MemoryCache.get cEmptyMC 20 "k").1 = .error "key not found in cache"
    ∧ (MemoryCache.get cExpiredMC 20 "k").1
        = .error "key not found in cache (expired)"
    ∧ (MemoryCache.get cEmptyMC 20 "k").1
        ≠ (MemoryCache.get cExpiredMC 20 "k").1 := by decide

/-- C6 amended: Get on an absent key and Get on an expired key both return
a Miss (an error, never the stale value) — but with DIFFERENT error
messages, so the two cases are distinguishable by message inspection; Get
lazily evicts an expired entry it encounters; and Get never returns a value
whose expiration instant has passed. -/
theorem C6_memory_cache_get_amended (c : MemoryCache String) (now : Time)
    (k : String) :
    (lookupA c.data k = none →
      MemoryCache.get c now k = (.error "key not found in cache", c))
    ∧ (∀ item : CacheItem String, lookupA c.data k = some item →
        now > item.expiration →
        MemoryCache.get c now k
          = (.error "key not found in cache (expired)", ⟨eraseA c.data k⟩)
        ∧ lookupA (MemoryCache.get c now k).2.data k = none)
    ∧ (∀ v : String, (MemoryCache.get c now k).1 = .ok v →
        ∃ item : CacheItem String, lookupA c.data k = some item
          ∧ item.value = v ∧ ¬ now > item.expiration) := by
  refine ⟨?_, ?_, ?_⟩
  · intro h
    simp [MemoryCache.get, h]
  · intro item h hexp
    refine ⟨by simp [MemoryCache.get, h, hexp], ?_⟩
    simp [MemoryCache.get, h, hexp, lookupA_eraseA_self]
  · intro v hv
    unfold MemoryCache.get at hv
    cases h : lookupA c.data k with
    | none => rw [h] at hv; simp at hv
    | some item =>
      rw [h] at hv
      by_cases hexp : now > item.expiration
      · simp [hexp] at hv
      · simp [hexp] at hv
        exact ⟨item, rfl, by simp [hv], hexp⟩

/-- C6 amended witness: concrete miss on the empty cache, concrete
expired-entry miss with lazy eviction, and a concrete live hit whose
entry is unexpired. -/
theorem C6_memory_cache_get_amended_witness :
    (lookupA cEmptyMC.data "k" = none
     ∧ MemoryCache.get cEmptyMC 20 "k"
         = (.error "key not found in cache", cEmptyMC))
    ∧ (MemoryCache.get cExpiredMC 20 "k"
         = (.error "key not found in cache (expired)",
            ⟨eraseA cExpiredMC.data "k"⟩)
       ∧ lookupA (MemoryCache.get cExpiredMC 20 "k").2.data "k" = none)
    ∧ (∃ item : CacheItem String, lookupA cLiveMC.data "k" = some item
        ∧ item.value = "v" ∧ ¬ (20 : Time) > item.expiration) :=
  ⟨⟨by decide, (C6_memory_cache_get_amended cEmptyMC 20 "k").1 (by decide)⟩,
   (C6_memory_cache_get_amended cExpiredMC 20 "k").2.1 ⟨"v", 10⟩ (by decide)
     (by decide),
   (C6_memory_cache_get_amended cLiveMC 20 "k").2.2 "v" (by decide)⟩

/-- C7 counterexample: resolving a token that does not exist and resolving
one that exists but has expired produce DIFFERENT error shapes in the code
("shared file not found: ..." versus "share link has expired"), so the
outcomes are not observably identical and a caller does learn whether the
token ever existed. -/
theorem C7_share_error_shape_counterexample :
    (getSharedFile wNoShare "tok" 20).1
      = .error ("shared file not found: " ++
          "failed to get shared file: sql: no rows in result set")
    ∧ (getSharedFile wShareExpired "tok" 20).1
        = .error "share link has expired"
    ∧ (getSharedFile wNoShare "tok" 20).1
        ≠ (getSharedFile wShareExpired "tok" 20).1 := by decide

/-- C7 amended: both a missing token and an expired token fail without
returning a file, and an expired ShareLink is terminal not-found
independent of whether the referenced file still exists (the expiry check
precedes any file lookup, so the error is the same for every world
content) — but the two failures carry different error messages, so the
error shape does leak whether the token exists. -/
theorem C7_shared_lookup_amended :
    (∀ (w : World) (tok : String) (now : Time),
      w.shares.find? (fun s => s.shareURL == tok) = none →
      getSharedFile w tok now
        = (.error ("shared file not found: " ++
            "failed to get shared file: sql: no rows in result set"), w))
    ∧ (∀ (w : World) (tok : String) (now : Time) (sf : SharedFile),
      repoGetSharedFile w.shares tok = .ok sf →
      sf.expiresAt ≠ 0 → now > sf.expiresAt →
      getSharedFile w tok now = (.error "share link has expired", w)) := by
  constructor
  · intro w tok now h
    simp [getSharedFile, repoGetSharedFile, h]
  · intro w tok now sf hsf hne hgt
    simp [getSharedFile, hsf, hne, hgt]

/-- C7 amended witness: the concrete missing-token and expired-token
resolutions, the latter in a world whose metadata store does not even
contain the referenced file. -/
theorem C7_shared_lookup_amended_witness :
    wNoShare.shares.find? (fun s => s.shareURL == "tok") = none
    ∧ getSharedFile wNoShare "tok" 20
        = (.error ("shared file not found: " ++
            "failed to get shared file: sql: no rows in result set"),
           wNoShare)
    ∧ getSharedFile wShareExpired "tok" 20
        = (.error "share link has expired", wShareExpired) :=
  ⟨by decide,
   C7_shared_lookup_amended.1 wNoShare "tok" 20 (by decide),
   C7_shared_lookup_amended.2 wShareExpired "tok" 20 shTokExpired
     (by decide) (by decide) (by decide)⟩

/-- C8 counterexample: the claim says expires_at is modified exactly when
provided.  With the payload `u8` providing `expires_in = "zzz"` (which
`time.ParseDuration` rejects) the update succeeds and `expires_at` is left
unmodified even though the expiry field was provided — the parse failure is
silently ignored. -/
theorem C8_unparsable_duration_counterexample :
    u8.expiresIn = some "zzz"
    ∧ pdModel "zzz" = none
    ∧ (updateFile pdModel wUpd "f8" 1 u8 100).1
        = .ok { fUpd with updatedAt := 100 }
    ∧ ({ fUpd with updatedAt := 100 } : File).expiresAt = fUpd.expiresAt := by
  decide

/-- C8 amended: ownership is verified before any change (a non-owner gets
an error and an unchanged world); for the owner, the update applies exactly
the provided fields — name and is_public exactly when provided, expires_at
to now + d exactly when expires_in is provided AND parses as d (an
unparsable duration is silently ignored) — leaves id, user_id, size,
content_type, storage_path, public_url and created_at unchanged, persists
only those columns (plus updated_at) in the matching rows, and then
invalidates (deletes) both the single-file and the owner-listing cache
entries. -/
theorem C8_update_provided_fields_amended (pd : String → Option Int)
    (w : World) (fid : String) (uid : Int) (u : FileUpdates) (now : Time)
    (f : File) (hf : repoGetFileByID w.rows fid = .ok f) :
    (f.userId = uid →
      updateFile pd w fid uid u now
        = (.ok { applyUpdates pd f u now with updatedAt := now },
           { w with
             rows := w.rows.map (fun r =>
               if r.id == (applyUpdates pd f u now).id
                   && r.userId == (applyUpdates pd f u now).userId then
                 { r with name := (applyUpdates pd f u now).name
                          isPublic := (applyUpdates pd f u now).isPublic
                          expiresAt := (applyUpdates pd f u now).expiresAt
                          updatedAt := now }
               else r)
             cacheFiles := eraseA w.cacheFiles (fileKey fid)
             cacheUser := eraseA w.cacheUser (userKey uid) }))
    ∧ (f.userId ≠ uid →
      updateFile pd w fid uid u now
        = (.error "not authorized to update this file", w))
    ∧ (applyUpdates pd f u now).name = u.name.getD f.name
    ∧ (applyUpdates pd f u now).isPublic = u.isPublic.getD f.isPublic
    ∧ (applyUpdates pd f u now).expiresAt
        = (match u.expiresIn with
           | some s => match pd s with
             | some d => now + d
             | none => f.expiresAt
           | none => f.expiresAt)
    ∧ (applyUpdates pd f u now).id = f.id
    ∧ (applyUpdates pd f u now).userId = f.userId
    ∧ (applyUpdates pd f u now).size = f.size
    ∧ (applyUpdates pd f u now).contentType = f.contentType
    ∧ (applyUpdates pd f u now).storagePath = f.storagePath
    ∧ (applyUpdates pd f u now).publicURL = f.publicURL
    ∧ (applyUpdates pd f u now).createdAt = f.createdAt := by
  have hfind := repoGet_find hf
  have hmem : f ∈ w.rows := List.mem_of_find?_eq_some hfind
  have hflds := applyUpdates_fields pd f u now
  have hid3 := applyUpdates_id pd f u now
  have huid3 := applyUpdates_userId pd f u now
  refine ⟨?_, ?_, hflds.1, hflds.2.1, hflds.2.2.1, hid3, huid3,
    hflds.2.2.2.1, hflds.2.2.2.2.1, hflds.2.2.2.2.2.1,
    hflds.2.2.2.2.2.2.1, hflds.2.2.2.2.2.2.2.1⟩
  · intro hown
    have howncond : ¬(f.userId ≠ uid) := by simp [hown]
    have hup := repoUpdateFile_ok w.rows (applyUpdates pd f u now) now
      ⟨f, hmem, hid3.symm, huid3.symm⟩
    simp only [updateFile, hf, if_neg howncond, hup]
  · intro hown
    simp only [updateFile, hf, if_pos hown]

/-- C8 amended witness: a concrete owner update providing all three fields
with a valid duration; the row, both cache entries, and the returned record
take exactly the characterized values. -/
theorem C8_update_provided_fields_amended_witness :
    fUpd.userId = 1
    ∧ updateFile pdModel wUpd "f8" 1 uGood 100
        = (.ok { applyUpdates pdModel fUpd uGood 100 with updatedAt := 100 },
           { wUpd with
             rows := wUpd.rows.map (fun r =>
               if r.id == (applyUpdates pdModel fUpd uGood 100).id
                   && r.userId == (applyUpdates pdModel fUpd uGood 100).userId
                 then
                 { r with
                   name := (applyUpdates pdModel fUpd uGood 100).name
                   isPublic := (applyUpdates pdModel fUpd uGood 100).isPublic
                   expiresAt :=
                     (applyUpdates pdModel fUpd uGood 100).expiresAt
                   updatedAt := 100 }
               else r)
             cacheFiles := eraseA wUpd.cacheFiles (fileKey "f8")
             cacheUser := eraseA wUpd.cacheUser (userKey 1) }) :=
  ⟨by decide,
   (C8_update_provided_fields_amended pdModel wUpd "f8" 1 uGood 100 fUpd
     (by decide)).1 (by decide)⟩

/-- C9 counterexample: the claim says every storage key from either
variant has the form `YYYY/MM/DD/<random>`.  The remote (S3) variant
prefixes its keys with `uploads/`, so its keys do not begin with the date
partition. -/
theorem C9_s3_prefix_counterexample :
    s3UploadKey "2025/10/11" "u1" "a.txt" = "uploads/2025/10/11/u1.txt"
    ∧ hasDatePartitionedForm "2025/10/11"
        (s3UploadKey "2025/10/11" "u1" "a.txt") = false
    ∧ hasDatePartitionedForm "2025/10/11"
        (localUploadKey "2025/10/11" "u1" "a.txt") = true := by decide

/-- C9 amended: both variants generate the key server-side from the
server's date and a fresh random identifier, preserving the original
extension: the local key is `date/<uuid>[.ext]` (date-partitioned form),
while the S3 key is `uploads/` followed by that form; the date comes from
`time.Now()` (the server's local date, UTC only when the server runs in
UTC); and two uploads whose fresh identifiers differ (same length, as UUID
strings are) always produce distinct keys in either variant. -/
theorem C9_storage_key_form_amended (date u1 u2 fn1 fn2 : String) :
    localUploadKey date u1 fn1 = date ++ "/" ++ u1 ++ filepathExt fn1
    ∧ s3UploadKey date u1 fn1
        = "uploads/" ++ (date ++ "/" ++ u1 ++ filepathExt fn1)
    ∧ hasDatePartitionedForm date (localUploadKey date u1 fn1) = true
    ∧ (u1.length = u2.length → u1 ≠ u2 →
        localUploadKey date u1 fn1 ≠ localUploadKey date u2 fn2
        ∧ s3UploadKey date u1 fn1 ≠ s3UploadKey date u2 fn2) := by
  refine ⟨rfl, by simp [s3UploadKey, String.append_assoc], ?_, ?_⟩
  · simp only [hasDatePartitionedForm, localUploadKey]
    simp only [String.data_append]
    rw [List.append_assoc]
    exact isPrefixOf_self_append _ _
  · intro hlen hne
    have hdlen : u1.data.length = u2.data.length := by
      cases u1; cases u2; simpa [String.length] using hlen
    constructor
    · intro heq
      apply hne
      have hd := congrArg String.data heq
      simp only [localUploadKey, String.data_append, List.append_assoc] at hd
      have hd2 := List.append_cancel_left hd
      have hd3 := List.append_cancel_left hd2
      have hu := (List.append_inj hd3 hdlen).1
      exact String.ext hu
    · intro heq
      apply hne
      have hd := congrArg String.data heq
      simp only [s3UploadKey, String.data_append, List.append_assoc] at hd
      have hd2 := List.append_cancel_left hd
      have hd3 := List.append_cancel_left hd2
      have hd4 := List.append_cancel_left hd3
      have hu := (List.append_inj hd4 hdlen).1
      exact String.ext hu

/-- C9 amended witness: two same-length distinct identifiers on the same
date yield distinct keys in both variants. -/
theorem C9_storage_key_form_amended_witness :
    ("aaaa" : String).length = ("bbbb" : String).length
    ∧ ("aaaa" : String) ≠ "bbbb"
    ∧ (localUploadKey "2025/10/11" "aaaa" "x.txt"
         ≠ localUploadKey "2025/10/11" "bbbb" "y.txt"
       ∧ s3UploadKey "2025/10/11" "aaaa" "x.txt"
         ≠ s3UploadKey "2025/10/11" "bbbb" "y.txt") :=
  ⟨by decide, by decide,
   (C9_storage_key_form_amended "2025/10/11" "aaaa" "bbbb" "x.txt"
     "y.txt").2.2.2 (by decide) (by decide)⟩

/-- C10: the read path never checks the file's own expiry: GetFile on a
cache miss returns the record from the metadata store and re-populates the
single-file cache entry even when the record's expires_at is in the past;
and reading through a share link whose own expiry has not passed returns
that same expired-but-unswept record. -/
theorem C10_reads_ignore_file_expiry (w : World) (fid tok : String)
    (now : Time) (f : File) (link : SharedFile)
    (hc : lookupA w.cacheFiles (fileKey fid) = none)
    (hf : repoGetFileByID w.rows fid = .ok f)
    (_hpast : f.expiresAt ≠ 0 ∧ f.expiresAt < now) :
    getFile w fid
      = (.ok f, { w with cacheFiles := insertA w.cacheFiles (fileKey fid) f })
    ∧ (w.shares.find? (fun s => s.shareURL == tok) = some link →
       link.fileId = fid →
       ¬(link.expiresAt ≠ 0 ∧ now > link.expiresAt) →
       getSharedFile w tok now
         = (.ok f,
            { w with cacheFiles := insertA w.cacheFiles (fileKey fid) f })) := by
  have h1 : getFile w fid
      = (.ok f,
         { w with cacheFiles := insertA w.cacheFiles (fileKey fid) f }) := by
    simp [getFile, hc, hf]
  refine ⟨h1, ?_⟩
  intro hl hlf hnex
  simp only [getSharedFile, repoGetSharedFile, hl, if_neg hnex, hlf, h1]

/-- C10 witness: `fPast` (expires_at 50, read at now = 100, uncached) is
returned by GetFile, re-cached, and served through the live link `tk`. -/
theorem C10_reads_ignore_file_expiry_witness :
    (fPast.expiresAt ≠ 0 ∧ fPast.expiresAt < 100)
    ∧ getFile wRead "p1"
        = (.ok fPast,
           { wRead with
             cacheFiles := insertA wRead.cacheFiles (fileKey "p1") fPast })
    ∧ getSharedFile wRead "tk" 100
        = (.ok fPast,
           { wRead with
             cacheFiles := insertA wRead.cacheFiles (fileKey "p1") fPast }) :=
  ⟨by decide,
   (C10_reads_ignore_file_expiry wRead "p1" "tk" 100 fPast linkLive
     (by decide) (by decide) (by decide)).1,
   (C10_reads_ignore_file_expiry wRead "p1" "tk" 100 fPast linkLive
     (by decide) (by decide) (by decide)).2 (by decide) (by decide)
     (by decide)⟩

end FileMgmt
